import Mathlib

/-!
Shallow embedding of `src/main.rs` of the rust_rocket_rest_api repository:
a Rocket HTTP service over a single SQLite table
`todo_list(id integer primary key, item varchar(64) not null)`.

The four handlers (`index`, `fetch_all_todo_items`, `add_todo_item`,
`remove_todo_item`) each open a SQLite connection, run one SQL statement and
map rows/errors to a response.  We model:
  - the table as a list of raw SQLite rows (each column a dynamically typed
    SQLite value, since SQLite stores values of any storage class in any
    column apart from the rowid column);
  - the fallible steps of each handler (connection open, statement prepare,
    statement execute) through an explicit failure environment, because the
    Rust code branches on exactly those three failure points;
  - results as `Except String _`, mirroring the Rust `Result<_, String>`.

SQLite specifics that the model follows faithfully:
  - `id integer primary key` aliases the rowid; when `null` is inserted the
    engine assigns `max(existing rowid) + 1` (1 for an empty table).  The
    64-bit overflow fallback is irrelevant to the claims and is not modelled.
  - `varchar(64)` carries TEXT affinity only: SQLite does not enforce the
    declared length, so any string is stored verbatim.
  - `delete from todo_list where id = $1` removes exactly the rows whose id
    column equals the bound integer and reports their count.
-/

namespace RocketTodo

/-- A dynamically typed SQLite value (storage classes). -/
inductive SqlValue where
  | null : SqlValue
  | int : Int → SqlValue
  | text : String → SqlValue
  | blob : List Nat → SqlValue
deriving DecidableEq, Repr

/-- One raw row of `todo_list`: column 0 is `id`, column 1 is `item`. -/
structure RawRow where
  idCol : SqlValue
  itemCol : SqlValue
deriving DecidableEq, Repr

/-- The persisted state: the rows of `todo_list`, in storage order. -/
abbrev Table := List RawRow

/-- `struct ToDoItem { id: i64, item: String }`. -/
structure ToDoItem where
  id : Int
  item : String
deriving DecidableEq, Repr

/-- `struct ToDoList { items: Vec<ToDoItem> }`. -/
structure ToDoList where
  items : List ToDoItem
deriving DecidableEq, Repr

/-- `struct StatusMessage { message: String }`. -/
structure StatusMessage where
  message : String
deriving DecidableEq, Repr

/-- Which fallible step of a handler fails, if any.  The Rust handlers
branch on connection failure, prepare failure and execute failure; `ok`
means the database layer raises no error. -/
inductive DbFailure where
  | ok : DbFailure
  | connect : DbFailure
  | prepare : DbFailure
  | execute : DbFailure
deriving DecidableEq, Repr

/-- `row.get::<i64>(0)?`: succeeds only when the stored value is an
integer (rusqlite raises `InvalidColumnType` otherwise, which the `?`
propagates). -/
def getInt64 : SqlValue → Except String Int
  | .int i => .ok i
  | _ => .error "InvalidColumnType"

/-- `row.get::<String>(1)?`: succeeds only when the stored value is text. -/
def getText : SqlValue → Except String String
  | .text s => .ok s
  | _ => .error "InvalidColumnType"

/-- The row-mapping closure passed to `query_map`:
`Ok(ToDoItem { id: row.get(0)?, item: row.get(1)? })`. -/
def mapRow (r : RawRow) : Except String ToDoItem := do
  let id ← getInt64 r.idCol
  let item ← getText r.itemCol
  pure { id := id, item := item }

/-- `rows.collect::<rusqlite::Result<Vec<ToDoItem>>>()`: maps every row in
order, short-circuiting at the first row whose mapping fails. -/
def collectRows : Table → Except String (List ToDoItem)
  | [] => .ok []
  | r :: rs =>
    match mapRow r with
    | .error e => .error e
    | .ok it =>
      match collectRows rs with
      | .error e => .error e
      | .ok rest => .ok (it :: rest)

/-- `fn index() -> &'static str`, the `GET /` handler.  It touches no state,
so it is a function of the table that returns the table unchanged. -/
def index (db : Table) : String × Table :=
  ("Hello, world!", db)

/-- `fn fetch_all_todo_items() -> Result<Json<ToDoList>, String>`, the
`GET /todo` handler: open connection, prepare
`select id, item from todo_list`, run `query_map` and collect, surfacing
each failure as the exact string the Rust code uses. -/
def fetch_all_todo_items (env : DbFailure) (db : Table) : Except String ToDoList :=
  match env with
  | .connect => .error "Failed to connect to database"
  | .prepare => .error "Failed to prepare a query"
  | .execute => .error "Failed to fetch ToDo Items"
  | .ok =>
    match collectRows db with
    | .ok items => .ok { items := items }
    | .error _ => .error "Could not collect items"

/-- `GET /todo` as a state transformer: a `select` statement never writes,
so the table component is returned unchanged on every path. -/
def fetch_all_todo_items_st (env : DbFailure) (db : Table) :
    Except String ToDoList × Table :=
  (fetch_all_todo_items env db, db)

/-- SQLite rowid of a row; in any table with this schema the id column is
the rowid and is always an integer (the non-integer arm is unreachable
there). -/
def rowIdOf (v : SqlValue) : Int :=
  match v with
  | .int i => i
  | _ => 0

/-- Largest rowid present (0 for an empty table). -/
def maxRowId (db : Table) : Int :=
  db.foldr (fun r m => max (rowIdOf r.idCol) m) 0

/-- The rowid SQLite assigns when `null` is inserted into an
`integer primary key` column: one more than the largest existing rowid,
hence 1 for an empty table. -/
def nextId (db : Table) : Int :=
  maxRowId db + 1

/-- `fn add_todo_item(item: Json<String>)`, the `POST /todo` handler:
open connection, prepare
`insert into todo_list (id, item) values (null, $1)`, execute with the body
string as the sole bound parameter.  On success the statement inserts one
row with a server-assigned id and `execute` reports 1 row changed, which is
formatted as `format!("{} rows inserted!", rows_added)`.  SQLite stores the
string verbatim (no length check: `varchar(64)` is not enforced). -/
def add_todo_item (env : DbFailure) (item : String) (db : Table) :
    Except String StatusMessage × Table :=
  match env with
  | .connect => (.error "Failed to connect to database", db)
  | .prepare => (.error "Failed to prepare a query", db)
  | .execute => (.error "Failed to insert ToDo Item", db)
  | .ok =>
    let rows_added : Nat := 1
    (.ok { message := toString rows_added ++ " rows inserted!" },
     db ++ [{ idCol := .int (nextId db), itemCol := .text item }])

/-- `fn remove_todo_item(id: i64)`, the `DELETE /todo/<id>` handler:
open connection, prepare `delete from todo_list where id = $1;`, execute
with `id` bound.  The statement deletes exactly the rows whose id column
equals the bound integer; `execute` reports their count, formatted as
`format!("{} rows deleted", rows_deleted)`. -/
def remove_todo_item (env : DbFailure) (id : Int) (db : Table) :
    Except String StatusMessage × Table :=
  match env with
  | .connect => (.error "Failed to connect to database", db)
  | .prepare => (.error "Failed to prepare a query", db)
  | .execute => (.error "Failed to delete ToDo Item", db)
  | .ok =>
    let rows_deleted := db.countP (fun r => r.idCol = SqlValue.int id)
    (.ok { message := toString rows_deleted ++ " rows deleted" },
     db.filter (fun r => ¬ r.idCol = SqlValue.int id))

/-- One client-visible operation against the service (the failure-free
database environment; failed statements leave the table unchanged anyway). -/
inductive Op where
  | getIndex : Op
  | getAll : Op
  | post : String → Op
  | delete : Int → Op
deriving DecidableEq, Repr

/-- State transition of one operation on the persisted table. -/
def stepOp (db : Table) : Op → Table
  | .getIndex => (index db).2
  | .getAll => (fetch_all_todo_items_st .ok db).2
  | .post s => (add_todo_item .ok s db).2
  | .delete i => (remove_todo_item .ok i db).2

/-- Table reached from the empty table by a sequence of operations. -/
def runOps (ops : List Op) : Table :=
  ops.foldl stepOp []

/-- Length of a stored item (0 when the stored value is not text). -/
def itemLen (r : RawRow) : Nat :=
  match r.itemCol with
  | .text s => s.length
  | _ => 0

/-- Lower-case hex digit, as used by serde_json for control-character
escapes. -/
def hexDigitChar (n : Nat) : Char :=
  if n < 10 then Char.ofNat (48 + n) else Char.ofNat (87 + n)

/-- serde_json escaping of one character inside a JSON string: quote,
backslash, the short escapes for backspace, form feed, newline, carriage
return and tab, and a four-digit unicode escape for the remaining control
characters; everything else is emitted verbatim. -/
def escapeChar (c : Char) : String :=
  if c = Char.ofNat 34 then "\\\""
  else if c = Char.ofNat 92 then "\\\\"
  else if c = Char.ofNat 8 then "\\b"
  else if c = Char.ofNat 12 then "\\f"
  else if c = Char.ofNat 10 then "\\n"
  else if c = Char.ofNat 13 then "\\r"
  else if c = Char.ofNat 9 then "\\t"
  else if c.toNat < 32 then
    "\\u00" ++ String.singleton (hexDigitChar (c.toNat / 16)) ++
      String.singleton (hexDigitChar (c.toNat % 16))
  else String.singleton c

/-- serde_json rendering of a Rust `String`'s contents (without the
surrounding quotes). -/
def escapeJson (s : String) : String :=
  String.join (s.data.map escapeChar)

/-- The JSON that `Json(ToDoItem)` produces through the derived
`Serialize` impl: fields in declaration order, `id` then `item`. -/
def jsonOfToDoItem (it : ToDoItem) : String :=
  "\x7b\"id\":" ++ toString it.id ++ ",\"item\":\"" ++ escapeJson it.item ++ "\"\x7d"

/-- The JSON that `Json(ToDoList)` produces through the derived
`Serialize` impl: the single `items` field holding the array. -/
def jsonOfToDoList (l : ToDoList) : String :=
  "\x7b\"items\":[" ++ String.intercalate "," (l.items.map jsonOfToDoItem) ++ "]\x7d"

/-- A row whose id column holds an integer (never null) and whose item
column holds text (never null). -/
def RowWellFormed (r : RawRow) : Prop :=
  (∃ i, r.idCol = SqlValue.int i) ∧ ∃ s, r.itemCol = SqlValue.text s

/-- A 65-character item, one past the declared `varchar(64)` bound. -/
def longItem : String := String.mk (List.replicate 65 'a')

/-- If some row of the table cannot be mapped to a `ToDoItem`, the
collection phase of the list handler fails. -/
theorem collectRows_error_of_unmappable (db : Table) (r : RawRow) (hr : r ∈ db)
    (hbad : ∀ it, mapRow r ≠ .ok it) : ∃ e, collectRows db = .error e := by
  induction db with
  | nil => cases hr
  | cons a rs ih =>
    rcases List.mem_cons.mp hr with rfl | hmem
    · cases h : mapRow r with
      | ok it => exact absurd h (hbad it)
      | error e => exact ⟨e, by simp [collectRows, h]⟩
    · cases h : mapRow a with
      | error e => exact ⟨e, by simp [collectRows, h]⟩
      | ok it =>
        obtain ⟨e, he⟩ := ih hmem
        exact ⟨e, by simp [collectRows, h, he]⟩

/-- When the collection phase succeeds it yields one `ToDoItem` per table
row, in order: the successful mapping of that very row. -/
theorem collectRows_ok_spec (db : Table) (items : List ToDoItem)
    (h : collectRows db = .ok items) :
    items.length = db.length ∧
      ∀ i (h1 : i < db.length) (h2 : i < items.length),
        mapRow (db.get ⟨i, h1⟩) = .ok (items.get ⟨i, h2⟩) := by
  induction db generalizing items with
  | nil =>
    simp only [collectRows] at h
    injection h with h
    subst h
    exact ⟨rfl, fun i h1 _ => absurd h1 (Nat.not_lt_zero i)⟩
  | cons a rs ih =>
    simp only [collectRows] at h
    cases ha : mapRow a with
    | error e => rw [ha] at h; cases h
    | ok it =>
      rw [ha] at h
      cases hrs : collectRows rs with
      | error e => rw [hrs] at h; cases h
      | ok rest =>
        rw [hrs] at h
        injection h with h
        subst h
        obtain ⟨hlen, hpt⟩ := ih rest hrs
        refine ⟨by simp [hlen], ?_⟩
        intro i h1 h2
        cases i with
        | zero => simpa using ha
        | succ n => simpa using hpt n (by simpa using h1) (by simpa using h2)

/-- Every rowid occurring in the table is bounded by `maxRowId`. -/
theorem rowIdOf_le_maxRowId (db : Table) (r : RawRow) (h : r ∈ db) :
    rowIdOf r.idCol ≤ maxRowId db := by
  induction db with
  | nil => cases h
  | cons a t ih =>
    have hmx : maxRowId (a :: t) = max (rowIdOf a.idCol) (maxRowId t) := rfl
    rw [hmx]
    rcases List.mem_cons.mp h with rfl | hm
    · exact le_max_left _ _
    · exact le_trans (ih hm) (le_max_right _ _)

/-- One operation preserves well-formed rows and distinct rowids: an
insert appends a fresh text row under a rowid strictly above every
existing one, a delete only filters rows out, and the reads leave the
table alone. -/
theorem stepOp_preserves_inv (db : Table) (op : Op)
    (h : (∀ r ∈ db, RowWellFormed r) ∧ (db.map fun r => rowIdOf r.idCol).Nodup) :
    (∀ r ∈ stepOp db op, RowWellFormed r) ∧
      ((stepOp db op).map fun r => rowIdOf r.idCol).Nodup := by
  obtain ⟨hwf, hnd⟩ := h
  cases op with
  | getIndex => exact ⟨hwf, hnd⟩
  | getAll => exact ⟨hwf, hnd⟩
  | post s =>
    constructor
    · intro r hr
      simp only [stepOp, add_todo_item, List.mem_append, List.mem_singleton] at hr
      rcases hr with h' | h'
      · exact hwf r h'
      · subst h'
        exact ⟨⟨nextId db, rfl⟩, ⟨s, rfl⟩⟩
    · simp only [stepOp, add_todo_item, List.map_append, List.map_cons, List.map_nil]
      rw [List.nodup_append]
      refine ⟨hnd, List.nodup_singleton _, ?_⟩
      intro x hx hx'
      obtain ⟨r, hr, hxr⟩ := List.mem_map.mp hx
      have hle := rowIdOf_le_maxRowId db r hr
      have hx0 : x = nextId db := by simpa [rowIdOf] using hx'
      rw [← hxr] at hx0
      simp only [nextId] at hx0
      omega
  | delete i =>
    constructor
    · intro r hr
      simp only [stepOp, remove_todo_item] at hr
      exact hwf r (List.mem_of_mem_filter hr)
    · have hsub : List.Sublist (stepOp db (Op.delete i)) db := List.filter_sublist db
      exact hnd.sublist (hsub.map _)

/-- The invariant of `stepOp_preserves_inv` carries over a whole operation
sequence. -/
theorem foldl_stepOp_preserves_inv (ops : List Op) (db : Table)
    (h : (∀ r ∈ db, RowWellFormed r) ∧ (db.map fun r => rowIdOf r.idCol).Nodup) :
    (∀ r ∈ ops.foldl stepOp db, RowWellFormed r) ∧
      ((ops.foldl stepOp db).map fun r => rowIdOf r.idCol).Nodup := by
  induction ops generalizing db with
  | nil => exact h
  | cons op t ih => exact ih _ (stepOp_preserves_inv db op h)

/-- Claim C1, counterexample to the quoted error strings: a table whose
row stores an integer in the item column makes the list handler fail, but
with the string "Could not collect items", which is neither of the two
strings named by the claim ("failed to fetch items" and
"could not collect items" both differ from it). -/
theorem fetch_error_string_cex :
    fetch_all_todo_items .ok [{ idCol := .int 1, itemCol := .int 2 }] =
        .error "Could not collect items" ∧
      "Could not collect items" ≠ "failed to fetch items" ∧
      "Could not collect items" ≠ "could not collect items" :=
  ⟨rfl, by decide, by decide⟩

/-- Claim C1 (amended): the list handler is all-or-nothing.  If any row
of the table cannot be mapped to a `ToDoItem` (column 0 as int64, column 1
as string), `GET /todo` returns the error "Could not collect items" (the
query_map-level failure being "Failed to fetch ToDo Items"); and whenever
it succeeds, the returned list has exactly one item per table row, each
the successful mapping of the corresponding row — no partial list is ever
returned. -/
theorem fetch_all_or_nothing (db : Table) :
    ((∃ r ∈ db, ∀ it, mapRow r ≠ .ok it) →
      fetch_all_todo_items .ok db = .error "Could not collect items") ∧
    ∀ l, fetch_all_todo_items .ok db = .ok l →
      l.items.length = db.length ∧
        ∀ i (h1 : i < db.length) (h2 : i < l.items.length),
          mapRow (db.get ⟨i, h1⟩) = .ok (l.items.get ⟨i, h2⟩) := by
  constructor
  · rintro ⟨r, hr, hbad⟩
    obtain ⟨e, he⟩ := collectRows_error_of_unmappable db r hr hbad
    simp [fetch_all_todo_items, he]
  · intro l hl
    simp only [fetch_all_todo_items] at hl
    cases hc : collectRows db with
    | error e => rw [hc] at hl; cases hl
    | ok items =>
      rw [hc] at hl
      injection hl with hl
      subst hl
      exact collectRows_ok_spec db items hc

/-- Claim C1, witness: on a one-row table whose item column holds a blob,
the list handler fails with "Could not collect items". -/
theorem fetch_all_or_nothing_witness :
    fetch_all_todo_items .ok [{ idCol := .int 3, itemCol := .blob [] }] =
      .error "Could not collect items" :=
  (fetch_all_or_nothing [{ idCol := .int 3, itemCol := .blob [] }]).1
    ⟨{ idCol := .int 3, itemCol := .blob [] }, List.mem_singleton.mpr rfl,
     fun _ h => Except.noConfusion h⟩

/-- Claim C2, counterexample: a connection failure during `POST /todo`
produces "Failed to connect to database", not "failed to insert item";
even the execution failure produces "Failed to insert ToDo Item", a
different string from the one the claim names. -/
theorem add_error_string_cex :
    (add_todo_item .connect "x" []).1 = .error "Failed to connect to database" ∧
      "Failed to connect to database" ≠ "failed to insert item" ∧
      (add_todo_item .execute "x" []).1 = .error "Failed to insert ToDo Item" ∧
      "Failed to insert ToDo Item" ≠ "failed to insert item" :=
  ⟨rfl, by decide, rfl, by decide⟩

/-- Claim C2 (amended): the three failure points of `POST /todo` produce
three distinct error strings — connection failure
"Failed to connect to database", statement-preparation failure
"Failed to prepare a query", execution failure
"Failed to insert ToDo Item" — and each failure leaves the table
unchanged. -/
theorem add_todo_item_error_strings (item : String) (db : Table) :
    add_todo_item .connect item db = (.error "Failed to connect to database", db) ∧
      add_todo_item .prepare item db = (.error "Failed to prepare a query", db) ∧
      add_todo_item .execute item db = (.error "Failed to insert ToDo Item", db) :=
  ⟨rfl, rfl, rfl⟩

/-- Claim C3: `DELETE /todo/<id>` succeeds with a `StatusMessage`
reporting exactly the number of rows removed (the count of rows whose id
matches, which equals the drop in table length); in particular, when no
row carries the given id the handler succeeds with "0 rows deleted" and
the table is untouched — a missing id is not an error. -/
theorem remove_reports_count (id : Int) (db : Table) :
    (remove_todo_item .ok id db).1 =
        .ok { message :=
          toString (db.countP fun r => r.idCol = SqlValue.int id) ++ " rows deleted" } ∧
      (db.countP fun r => r.idCol = SqlValue.int id) =
        db.length - (remove_todo_item .ok id db).2.length ∧
      ((∀ r ∈ db, r.idCol ≠ SqlValue.int id) →
        remove_todo_item .ok id db = (.ok { message := "0 rows deleted" }, db)) := by
  refine ⟨rfl, ?_, ?_⟩
  · have h := List.length_eq_length_filter_add (l := db)
      (fun r => decide (r.idCol = SqlValue.int id))
    simp only [remove_todo_item]
    rw [List.countP_eq_length_filter]
    simp only [decide_not] at h ⊢
    omega
  · intro hnone
    have hcnt : (db.countP fun r => r.idCol = SqlValue.int id) = 0 := by
      rw [List.countP_eq_zero]
      intro r hr
      simpa using hnone r hr
    have hfil : (db.filter fun r => ¬ r.idCol = SqlValue.int id) = db := by
      rw [List.filter_eq_self]
      intro r hr
      simpa using hnone r hr
    simp only [remove_todo_item, hcnt, hfil]
    rfl

/-- Claim C3, witness: deleting id 5 from a table holding only id 1
succeeds with "0 rows deleted" and leaves the row in place. -/
theorem remove_reports_count_witness :
    remove_todo_item .ok 5 [{ idCol := .int 1, itemCol := .text "a" }] =
      (.ok { message := "0 rows deleted" }, [{ idCol := .int 1, itemCol := .text "a" }]) :=
  (remove_reports_count 5 [{ idCol := .int 1, itemCol := .text "a" }]).2.2 (by decide)

/-- Claim C4: from the empty table, a successful `POST /todo` with body
"buy milk" followed by a successful `GET /todo` yields a list holding
exactly one item, whose item field is "buy milk" and whose id is a
positive integer (here 1, the first server-assigned rowid). -/
theorem post_then_get_round_trip :
    ∃ it : ToDoItem,
      fetch_all_todo_items .ok (runOps [Op.post "buy milk"]) = .ok { items := [it] } ∧
        it.item = "buy milk" ∧ 0 < it.id :=
  ⟨{ id := 1, item := "buy milk" }, rfl, rfl, by decide⟩

/-- Claim C5, counterexample to the length bound: posting a 65-character
item from the empty table reaches a state holding a row whose item is
longer than 64 characters — SQLite does not enforce the declared
`varchar(64)` length and no handler checks it. -/
theorem varchar_not_enforced_cex :
    ∃ r ∈ runOps [Op.post longItem], 64 < itemLen r := by
  refine ⟨{ idCol := .int 1, itemCol := .text longItem },
    List.mem_singleton.mpr rfl, ?_⟩
  decide

/-- Claim C5 (amended): in every state reachable by the four operations
from the empty table, every row has a non-null integer id and a non-null
text item, and the ids are pairwise distinct; no bound on the item length
holds, since neither the handlers nor SQLite's `varchar(64)` column
enforce one. -/
theorem reachable_table_inv (ops : List Op) :
    (∀ r ∈ runOps ops, RowWellFormed r) ∧
      ((runOps ops).map fun r => rowIdOf r.idCol).Nodup :=
  foldl_stepOp_preserves_inv ops []
    ⟨fun r hr => absurd hr (List.not_mem_nil r), List.nodup_nil⟩

/-- Claim C6: a successful `POST /todo` stores the body string verbatim as
the sole bound parameter of the insert, under a server-assigned id
(`nextId`, SQLite's replacement for the inserted null), and answers with
the StatusMessage "1 rows inserted!" — one row inserted, n = 1. -/
theorem add_ok_spec (item : String) (db : Table) :
    add_todo_item .ok item db =
      (.ok { message := "1 rows inserted!" },
       db ++ [{ idCol := .int (nextId db), itemCol := .text item }]) := rfl

/-- Claim C7: on the empty table `GET /todo` succeeds with a `ToDoList`
holding no items, whose JSON rendering is exactly the six characters
of an items object with an empty array. -/
theorem get_empty_table_json :
    fetch_all_todo_items .ok [] = .ok { items := [] } ∧
      jsonOfToDoList { items := [] } = "\x7b\"items\":[]\x7d" :=
  ⟨rfl, rfl⟩

/-- Claim C8: `GET /` always returns the literal text "Hello, world!"
and leaves the table untouched; it has no failure path (its result type
is not fallible). -/
theorem index_hello_world (db : Table) : index db = ("Hello, world!", db) := rfl

/-- Claim C9: `GET /todo` is read-only — on every exit path (success,
connection failure, prepare failure, execute failure, row-mapping
failure) the table after the handler equals the table before it. -/
theorem fetch_is_read_only (env : DbFailure) (db : Table) :
    (fetch_all_todo_items_st env db).2 = db := rfl

/-- Claim C10: `DELETE /todo/<id>` only removes rows whose id column
equals the bound id — every row with a different id survives, and the
resulting table is a sublist of the original (rows are only removed,
never altered or reordered), on the success path and on every error
path. -/
theorem remove_frame (env : DbFailure) (id : Int) (db : Table) (r : RawRow)
    (hmem : r ∈ db) (hne : r.idCol ≠ SqlValue.int id) :
    r ∈ (remove_todo_item env id db).2 ∧
      List.Sublist (remove_todo_item env id db).2 db := by
  cases env with
  | connect => exact ⟨hmem, List.Sublist.refl db⟩
  | prepare => exact ⟨hmem, List.Sublist.refl db⟩
  | execute => exact ⟨hmem, List.Sublist.refl db⟩
  | ok =>
    constructor
    · exact List.mem_filter_of_mem hmem (by simpa using hne)
    · exact List.filter_sublist db

/-- Claim C10, witness: deleting id 2 from a two-row table keeps the row
with id 1. -/
theorem remove_frame_witness :
    ({ idCol := .int 1, itemCol := .text "a" } : RawRow) ∈
        (remove_todo_item .ok 2
          [{ idCol := .int 1, itemCol := .text "a" },
           { idCol := .int 2, itemCol := .text "b" }]).2 :=
  (remove_frame .ok 2
    [{ idCol := .int 1, itemCol := .text "a" },
     { idCol := .int 2, itemCol := .text "b" }]
    { idCol := .int 1, itemCol := .text "a" } (by decide) (by decide)).1

end RocketTodo
